import Mathlib

/-!
Verification of the gb-ngram-scapper repository.

The repository contains three JavaScript scripts:
* `src/src/main.js` variant 1 (lines 1-246): Apify actor with a plain
  batch loop, per-batch failure records and a final summary log.
* `src/src/main.js` variant 2 (lines 247-445): Apify actor with a
  retry/backoff loop and a `lastProcessedIndex` checkpoint.
* `src/ngram-scraper.js`: a standalone CLI script.

JavaScript numbers carried in the API `timeseries` arrays are modelled as
exact rationals (`ℚ`); the only numeric operations performed by the code
are `x * 100` and `Number.prototype.toFixed(10)`, modelled below following
the ECMA-262 algorithm on rationals.
-/

/-! ## String helpers shared by the scripts -/

/-- `s.replace(pat, "")` for a string pattern (JavaScript `String.replace`
replaces only the first occurrence of the pattern, anywhere in the string). -/
def replaceFirstDrop (s pat : List Char) : List Char :=
  match s with
  | [] => []
  | c :: rest =>
    if pat.isPrefixOf (c :: rest) then (c :: rest).drop pat.length
    else c :: replaceFirstDrop rest pat

/-- `item.ngram.replace(" (All)", "")` (main.js variant 2 line 332,
ngram-scraper.js line 57). -/
def stripAllSuffix (s : String) : String :=
  String.mk (replaceFirstDrop s.data " (All)".data)

/-- Whether `pat` occurs as a contiguous substring of `s` (used to state
what an error message does or does not carry). -/
def containsSub (s pat : List Char) : Bool :=
  match s with
  | [] => pat.isEmpty
  | _ :: rest => pat.isPrefixOf s || containsSub rest pat

/-! ## `Number.prototype.toFixed(10)` on rationals -/

/-- The ten decimal digits of `f < 10^10`, most significant first,
zero-padded to exactly ten characters. -/
def fracDigits10 (f : Nat) : String :=
  String.mk ((List.range 10).map fun k => Nat.digitChar (f / 10 ^ (9 - k) % 10))

/-- Integer and fraction part of the ECMA-262 `toFixed(10)` rendering of a
nonnegative rational: `n` is the integer nearest `x * 10^10` (ties toward the
larger `n`), split as `n = i * 10^10 + f`. -/
def toFixedParts (x : ℚ) : Nat × Nat :=
  let n : Nat := (⌊x * 10 ^ 10 + 1 / 2⌋).toNat
  (n / 10 ^ 10, n % 10 ^ 10)

/-- Strip trailing `'0'` characters (mantissa of the exponential
notation). -/
def stripTrailingZeros (s : List Char) : List Char :=
  (s.reverse.dropWhile fun c => c == '0').reverse

/-- `Number::toString` (ECMA-262) in the regime `x >= 10^21` reached by
`toFixed`: exponential notation `d[.ddd]e+k` built from the decimal digits
of the value.  In this regime every IEEE double is an integer, and this
renders its exact decimal digits (e.g. `10^21` to `"1e+21"`); the engine's
shortest-round-trip digit selection, which can shorten the mantissa of
inexactly-stored doubles, is floating-point behaviour outside this
embedding, and none of the theorems below depend on it. -/
def jsToStringLarge (x : ℚ) : String :=
  let ds := Nat.repr (⌊x⌋.toNat)
  let m := stripTrailingZeros ds.data
  let k := ds.length - 1
  if m.length ≤ 1 then String.mk m ++ "e+" ++ Nat.repr k
  else String.mk (m.take 1) ++ "." ++ String.mk (m.drop 1) ++ "e+" ++ Nat.repr k

/-- `Number.prototype.toFixed(10)` (ECMA-262) on the magnitude (the sign
has already been split off): a value of `10^21` or more falls back to
`Number::toString`; a smaller one gets the 10-digit decimal rendering. -/
def jsToFixed10Mag (x : ℚ) : String :=
  if 10 ^ 21 ≤ x then jsToStringLarge x
  else Nat.repr (toFixedParts x).1 ++ "." ++ fracDigits10 (toFixedParts x).2

/-- `Number.prototype.toFixed(10)` (ECMA-262), on exact rationals. -/
def jsToFixed10 (x : ℚ) : String :=
  if x < 0 then "-" ++ jsToFixed10Mag (-x) else jsToFixed10Mag x

/-- Number of characters strictly after the last `.` of `s` (equal to
`s.length` when `s` has no `.`). -/
def digitsAfterPoint (s : String) : Nat :=
  (s.data.reverse.takeWhile fun c => c != '.').length

/-! ## Response normalization

`Entry` is one element of the JSON array returned by the ngram endpoint:
`{ type, ngram, timeseries }`. -/

structure Entry where
  type : String
  ngram : String
  timeseries : List ℚ
deriving DecidableEq

/-- `data.filter((item) => item.type === "CASE_INSENSITIVE")` (main.js
lines 94 and 330, ngram-scraper.js line 55). -/
def keptEntries (data : List Entry) : List Entry :=
  data.filter fun e => e.type == "CASE_INSENSITIVE"

/-- `item.timeseries[item.timeseries.length - 1] * 100` followed by
`.toFixed(10)` (main.js lines 97-98 and 333-334, ngram-scraper.js
lines 58-59).  On an empty timeseries, JavaScript indexing yields
`undefined`, `undefined * 100` is `NaN`, and `NaN.toFixed(10)` is the
string `"NaN"`. -/
def entryFreq (ts : List ℚ) : String :=
  match ts.getLast? with
  | some x => jsToFixed10 (x * 100)
  | none => "NaN"

/-- The `resultsMap` built by `forEach(... resultsMap.set(word, ...))`:
a later `set` of the same key overwrites an earlier one.  `stripLabel` is
`id` in main.js variant 1 (line 96) and `stripAllSuffix` in main.js
variant 2 (line 332) and ngram-scraper.js (line 57). -/
def buildMap (stripLabel : String → String) (data : List Entry) : String → Option String :=
  (keptEntries data).foldl
    (fun m e => fun w =>
      if w = stripLabel e.ngram then some (entryFreq e.timeseries) else m w)
    (fun _ => none)

/-- `words.map((word) => ({word, freq: resultsMap.has(word) ? resultsMap.get(word) : sentinel}))`
(main.js lines 102-105 and 337-340, ngram-scraper.js lines 63-66). -/
def wordFreqOf (stripLabel : String → String) (sentinel : String)
    (words : List String) (data : List Entry) : List (String × String) :=
  words.map fun w => (w, (buildMap stripLabel data w).getD sentinel)

/-- main.js variant 1, `scrapeNgrams` lines 90-105: label used as-is,
sentinel `"-1.0000000000"`. -/
def wordFreqV1 (words : List String) (data : List Entry) : List (String × String) :=
  wordFreqOf id "-1.0000000000" words data

/-- main.js variant 2, `processBatch` lines 327-340: `" (All)"` stripped,
sentinel `"-1.0000000000"`. -/
def wordFreqV2 (words : List String) (data : List Entry) : List (String × String) :=
  wordFreqOf stripAllSuffix "-1.0000000000" words data

/-- ngram-scraper.js, `scrapeNgrams` lines 53-66: `" (All)"` stripped,
sentinel `"-1.0"`. -/
def wordFreqNS (words : List String) (data : List Entry) : List (String × String) :=
  wordFreqOf stripAllSuffix "-1.0" words data

/-- The record pushed to the dataset per batch. -/
structure BatchResult where
  year : String
  word_freq : List (String × String)
  timestamp : String
  batch_size : Nat
deriving DecidableEq

/-- main.js variant 1, `scrapeNgrams` lines 107-112. -/
def scrapeNgramsV1 (words : List String) (data : List Entry) (yearEnd : Int)
    (now : String) : BatchResult :=
  { year := toString yearEnd ++ ".0000000000"
    word_freq := wordFreqV1 words data
    timestamp := now
    batch_size := words.length }

/-- main.js variant 2, `processBatch` lines 342-347. -/
def processBatchResultV2 (words : List String) (data : List Entry) (yearEnd : Int)
    (now : String) : BatchResult :=
  { year := toString yearEnd
    word_freq := wordFreqV2 words data
    timestamp := now
    batch_size := words.length }


/-! ## Batch partition

`for (let i = 0; i < words.length; i += batchSize) { const batch =
words.slice(i, i + batchSize); ... }` (main.js lines 169-170 and 368-369):
the consecutive batches are `words.slice(0, B)`, `words.slice(B, 2B)`, ...
The `B = 0` arm is unreachable in the scripts (input validation requires
`1 <= batchSize`); in JavaScript the loop would not terminate there. -/
def makeBatches : List String → Nat → List (List String)
  | _, 0 => []
  | [], _ + 1 => []
  | w :: ws, B + 1 => (w :: ws).take (B + 1) :: makeBatches (ws.drop B) (B + 1)
termination_by l _ => l.length
decreasing_by simp only [List.length_drop, List.length_cons]; omega

/-! ## Retry scheduler (main.js variant 2, lines 370-398)

```
let retries = 0; let success = false;
while (!success && retries < MAX_RETRIES) {
  try { ...attempt...; success = true; }
  catch (error) {
    retries++;
    if (retries === MAX_RETRIES)
      throw new Error(`Failed processing words: ${batch.join(", ")}`);
    delay = ...; await sleep(delay);
  }
}
```

`attempt k` is the outcome of the `k`-th call of `processBatch` for this
batch (the network is the only source of nondeterminism, so it is passed in
as an oracle).  `retrySchedule` carries `remaining = maxRetries - retries`
and the number of backoff sleeps performed so far. -/

/-- How the `while` loop of the retry scheduler ends. -/
inductive LoopExit (R : Type) where
  | success (r : R)
  | thrown (msg : String)
  | fellThrough
deriving DecidableEq

def retrySchedule {R : Type} (attempt : Nat → Except String R)
    (batchWords : List String) : Nat → Nat → Nat → LoopExit R × Nat
  | 0, _, delays => (LoopExit.fellThrough, delays)
  | remaining + 1, k, delays =>
    match attempt k with
    | Except.ok r => (LoopExit.success r, delays)
    | Except.error _ =>
      if remaining = 0 then
        (LoopExit.thrown ("Failed processing words: " ++ String.intercalate ", " batchWords),
          delays)
      else
        retrySchedule attempt batchWords remaining (k + 1) (delays + 1)

/-- The retry loop entered with `retries = 0` and no sleeps performed. -/
def retryScheduler {R : Type} (attempt : Nat → Except String R)
    (batchWords : List String) (maxRetries : Nat) : LoopExit R × Nat :=
  retrySchedule attempt batchWords maxRetries 0 0


/-! ## Pipeline runs as event traces

The externally observable actions of the two `main.js` pipelines, in
program order.  `request i k` is the outbound GET of attempt `k` for the
batch starting at word index `i`; `pushResult`, `pushProgress` and
`pushFailureRecord` are `Actor.pushData` calls; `setCheckpoint` is
`store.setValue("lastProcessedIndex", ...)`; `loadCheckpoint` is the single
`store.getValue("lastProcessedIndex")` at run start. -/

inductive Event where
  | loadCheckpoint (n : Nat)
  | request (batchStart attempt : Nat)
  | pushResult (batchStart : Nat) (batchWords : List String)
  | pushProgress (processedIndex totalWords : Nat)
  | setCheckpoint (n : Nat)
  | backoffDelay (retries : Nat)
  | pacingDelay
  | pushFailureRecord (batchNumber : Nat) (failedWords : List String) (errorMessage : String)
  | summary (totalWords totalBatches successfulBatches : Nat)
deriving DecidableEq

def Event.isLoadCheckpoint : Event → Bool
  | Event.loadCheckpoint _ => true
  | _ => false

def Event.isFailureRecord : Event → Bool
  | Event.pushFailureRecord _ _ _ => true
  | _ => false

def Event.isSummary : Event → Bool
  | Event.summary _ _ _ => true
  | _ => false

/-- `MAX_RETRIES` of main.js variant 2 (line 361). -/
def MAX_RETRIES : Nat := 5

/-- The `while` retry loop of main.js variant 2 (lines 375-398), with its
side effects recorded as events.  On a successful attempt the loop body
performs, in order: the GET request, `Actor.pushData(result)` (inside
`processBatch`, line 351), `Actor.pushData({...result, processedIndex,
totalWords})` (line 378) and `store.setValue("lastProcessedIndex",
i + batch.length)` (line 384).  On a failed attempt with the budget not yet
exhausted it performs the GET and one backoff sleep; on the final failed
attempt it performs only the GET and throws. -/
def retryLoopV2 (attempt : Nat → Except String Unit) (batch : List String)
    (i totalWords : Nat) : Nat → Nat → List Event × Option String
  | 0, _ => ([], none)
  | remaining + 1, k =>
    match attempt k with
    | Except.ok _ =>
      ([Event.request i k, Event.pushResult i batch,
        Event.pushProgress (i + batch.length) totalWords,
        Event.setCheckpoint (i + batch.length)], none)
    | Except.error _ =>
      if remaining = 0 then
        ([Event.request i k],
          some ("Failed processing words: " ++ String.intercalate ", " batch))
      else
        let rest := retryLoopV2 attempt batch i totalWords remaining (k + 1)
        (Event.request i k :: Event.backoffDelay (k + 1) :: rest.1, rest.2)

/-- The `for` loop of `processAllWords` in main.js variant 2 (lines
368-405).  `env i k` is the outcome of attempt `k` of the batch starting at
word index `i`.  A thrown batch-exhausted error propagates out of the loop
(there is no surrounding catch), ending the run with that error.  After a
successful batch, an inter-batch pacing sleep happens when
`i + batchSize < words.length` (line 400).  `fuel` bounds the number of
iterations; `words.length + 1` suffices whenever `1 <= B` (for `B = 0` the
JavaScript loop would not terminate). -/
def runLoopV2 (env : Nat → Nat → Except String Unit) (words : List String) (B : Nat) :
    Nat → Nat → List Event × Option String
  | 0, _ => ([], none)
  | fuel + 1, i =>
    if i < words.length then
      let batch := (words.drop i).take B
      let r := retryLoopV2 (env i) batch i words.length MAX_RETRIES 0
      match r.2 with
      | some msg => (r.1, some msg)
      | none =>
        let pacing := if i + B < words.length then [Event.pacingDelay] else []
        let rest := runLoopV2 env words B fuel (i + B)
        (r.1 ++ pacing ++ rest.1, rest.2)
    else ([], none)

/-- `processAllWords` of main.js variant 2 (lines 360-406): read the
checkpoint once (`(await store.getValue("lastProcessedIndex")) || 0`,
line 365) and run the batch loop from that index. -/
def processAllWordsV2 (env : Nat → Nat → Except String Unit) (words : List String)
    (B : Nat) (stored : Option Nat) : List Event × Option String :=
  let start := stored.getD 0
  let r := runLoopV2 env words B (words.length + 1) start
  (Event.loadCheckpoint start :: r.1, r.2)

/-- `main` of main.js variant 2 (lines 409-445): input validation (lines
421-427) happens before the scraper runs; a validation failure or an
escaped batch-exhausted error is rethrown after logging, so the run ends
with that error. -/
def mainV2 (wordsInput : Option (List String)) (batchSize : Int)
    (env : Nat → Nat → Except String Unit) (stored : Option Nat) :
    List Event × Option String :=
  let words := wordsInput.getD []
  if words = [] then
    ([], some "Input must contain a non-empty array of words")
  else if batchSize < 1 ∨ 12 < batchSize then
    ([], some "Batch size must be between 1 and 12")
  else
    processAllWordsV2 env words batchSize.toNat stored

/-- The body of the `for` loop of `processAllWords` in main.js variant 1
(lines 169-187) together with `processBatch` (lines 121-158).  `env bn` is
the outcome of the single network attempt of batch number `bn`.  On
success, `processBatch` pushes the `BatchResult` and sleeps when
`batchNumber < totalBatches` (line 141); on failure it pushes a failure
record `{error: true, batch_number, failed_words, error_message,
timestamp}` (lines 149-155) and rethrows; `processAllWords` catches the
rethrown error and continues with the next batch (lines 182-186).
Returns the number of successful batches and the trace. -/
def runLoopV1 (env : Nat → Except String Unit) (words : List String)
    (B totalBatches : Nat) : Nat → Nat → Nat × List Event
  | 0, _ => (0, [])
  | fuel + 1, i =>
    if i < words.length then
      let batch := (words.drop i).take B
      let bn := i / B + 1
      match env bn with
      | Except.ok _ =>
        let rest := runLoopV1 env words B totalBatches fuel (i + B)
        (rest.1 + 1,
          Event.request i 0 :: Event.pushResult i batch ::
            ((if bn < totalBatches then [Event.pacingDelay] else []) ++ rest.2))
      | Except.error msg =>
        let rest := runLoopV1 env words B totalBatches fuel (i + B)
        (rest.1, Event.request i 0 :: Event.pushFailureRecord bn batch msg :: rest.2)
    else (0, [])

/-- `processAllWords` of main.js variant 1 (lines 160-202):
`totalBatches = Math.ceil(words.length / batchSize)`, then the batch loop,
then the summary log (lines 193-201), which is always reached because every
batch error is caught inside the loop. -/
def processAllWordsV1 (env : Nat → Except String Unit) (words : List String)
    (B : Nat) : List Event :=
  let totalBatches := (words.length + B - 1) / B
  let r := runLoopV1 env words B totalBatches (words.length + 1) 0
  r.2 ++ [Event.summary words.length totalBatches r.1]

/-- `main` of main.js variant 1 (lines 206-246): input validation (lines
223-229) before the scraper runs; batch failures never escape
`processAllWords`, so a started run always finishes without error. -/
def mainV1 (wordsInput : Option (List String)) (batchSize : Int)
    (env : Nat → Except String Unit) : List Event × Option String :=
  let words := wordsInput.getD []
  if words = [] then
    ([], some "Input must contain a non-empty array of words")
  else if batchSize < 1 ∨ 20 < batchSize then
    ([], some "Batch size must be between 1 and 20")
  else
    (processAllWordsV1 env words batchSize.toNat, none)

/-! ## Trace observations -/

/-- The successive values written to the checkpoint key, in order. -/
def checkpointValues (evs : List Event) : List Nat :=
  evs.filterMap fun e =>
    match e with
    | Event.setCheckpoint n => some n
    | _ => none

/-- The concatenation, in order, of the word batches committed to the
output sink. -/
def committedWords (evs : List Event) : List String :=
  (evs.filterMap fun e =>
    match e with
    | Event.pushResult _ ws => some ws
    | _ => none).flatten

/-- Checks that every `setCheckpoint n` in the trace is the third element
of a window `pushResult i ws, pushProgress n total, setCheckpoint n` with
`n = i + ws.length`: the checkpoint is written only after the batch it
covers has been committed to the output sink. -/
def wellCheckpointed : List Event → Bool
  | Event.pushResult i ws :: Event.pushProgress m _t :: Event.setCheckpoint n :: rest =>
    (n == i + ws.length) && (m == n) && wellCheckpointed rest
  | Event.setCheckpoint _ :: _ => false
  | _ :: rest => wellCheckpointed rest
  | [] => true




/-! ## Helper lemmas: decimal formatting -/

theorem takeWhile_append_of_all {α : Type} (p : α → Bool) (l₁ l₂ : List α)
    (h : ∀ a ∈ l₁, p a = true) :
    (l₁ ++ l₂).takeWhile p = l₁ ++ l₂.takeWhile p := by
  induction l₁ with
  | nil => simp
  | cons a l ih =>
    simp only [List.cons_append, List.takeWhile_cons, h a (by simp)]
    exact congrArg (a :: ·) (ih fun x hx => h x (by simp [hx]))

theorem digitChar_ne_dot (d : Nat) (h : d < 10) : (Nat.digitChar d != '.') = true := by
  interval_cases d <;> decide

theorem fracDigits10_data (f : Nat) :
    (fracDigits10 f).data = (List.range 10).map fun k => Nat.digitChar (f / 10 ^ (9 - k) % 10) :=
  rfl

theorem fracDigits10_length (f : Nat) : (fracDigits10 f).data.length = 10 := by
  simp [fracDigits10_data]

theorem fracDigits10_ne_dot (f : Nat) :
    ∀ c ∈ (fracDigits10 f).data, (c != '.') = true := by
  intro c hc
  rw [fracDigits10_data, List.mem_map] at hc
  obtain ⟨k, _, rfl⟩ := hc
  exact digitChar_ne_dot _ (Nat.mod_lt _ (by norm_num))

theorem digitsAfterPoint_pre_frac (pre : String) (f : Nat) :
    digitsAfterPoint (pre ++ "." ++ fracDigits10 f) = 10 := by
  unfold digitsAfterPoint
  have hdata : (pre ++ "." ++ fracDigits10 f).data =
      (pre.data ++ ['.']) ++ (fracDigits10 f).data := by
    simp [String.data_append]
  rw [hdata, List.reverse_append, takeWhile_append_of_all _ _ _
    (fun a ha => fracDigits10_ne_dot f a (List.mem_reverse.mp ha))]
  have : ((pre.data ++ ['.']).reverse).takeWhile (fun c => c != '.') = [] := by
    simp [List.reverse_append, List.takeWhile_cons]
  rw [List.length_append, this, List.length_reverse, fracDigits10_length]
  simp

/-! ## Helper lemmas: the results map -/

theorem foldl_set_lookup (stripLabel : String → String) (l : List Entry)
    (m : String → Option String) (w : String) :
    (l.foldl
        (fun m e => fun w' =>
          if w' = stripLabel e.ngram then some (entryFreq e.timeseries) else m w')
        m) w =
      match l.reverse.find? (fun e => stripLabel e.ngram == w) with
      | some e => some (entryFreq e.timeseries)
      | none => m w := by
  induction l generalizing m with
  | nil => simp
  | cons e t ih =>
    simp only [List.foldl_cons, List.reverse_cons]
    rw [ih, List.find?_append]
    cases hf : t.reverse.find? (fun e' => stripLabel e'.ngram == w) with
    | some e' => simp [hf]
    | none =>
      simp only [hf, Option.none_or, List.find?_cons, List.find?_nil]
      by_cases hw : stripLabel e.ngram = w
      · simp [hw]
      · have hbeq : (stripLabel e.ngram == w) = false := by
          simp [hw]
        simp only [hbeq, cond_false]
        exact if_neg fun h => hw (Eq.symm h)

theorem buildMap_lookup (stripLabel : String → String) (data : List Entry) (w : String) :
    buildMap stripLabel data w =
      ((keptEntries data).reverse.find? fun e => stripLabel e.ngram == w).map
        fun e => entryFreq e.timeseries := by
  unfold buildMap
  rw [foldl_set_lookup]
  cases hf : (keptEntries data).reverse.find? (fun e => stripLabel e.ngram == w) <;> simp [hf]

theorem buildMap_nil (stripLabel : String → String) (w : String) :
    buildMap stripLabel [] w = none := by
  rw [buildMap_lookup]
  simp [keptEntries]

/-! ## Helper lemmas: batch partition -/

theorem makeBatches_flatten (words : List String) (B : Nat) (hB : 1 ≤ B) :
    (makeBatches words B).flatten = words := by
  induction words, B using makeBatches.induct with
  | case1 l => omega
  | case2 B => simp [makeBatches]
  | case3 w ws B ih =>
    simp only [makeBatches, List.flatten_cons, ih (by omega)]
    simp [List.take_append_drop]

theorem makeBatches_size (words : List String) (B : Nat) :
    ∀ b ∈ makeBatches words B, b.length ≤ B := by
  induction words, B using makeBatches.induct with
  | case1 l => simp [makeBatches]
  | case2 B => simp [makeBatches]
  | case3 w ws B ih =>
    intro b hb
    simp only [makeBatches, List.mem_cons] at hb
    rcases hb with rfl | hb
    · simp
    · exact ih b hb

/-! ## Helper lemmas: retry scheduler -/

theorem retrySchedule_success {R : Type} (attempt : Nat → Except String R)
    (ws : List String) (r : R) :
    ∀ (n remaining k delays : Nat),
      (∀ j, j < n → ∃ msg, attempt (k + j) = Except.error msg) →
      attempt (k + n) = Except.ok r → n < remaining →
      retrySchedule attempt ws remaining k delays = (LoopExit.success r, delays + n) := by
  intro n
  induction n with
  | zero =>
    intro remaining k delays _ hok hlt
    obtain ⟨rem, rfl⟩ : ∃ rem, remaining = rem + 1 := ⟨remaining - 1, by omega⟩
    simp only [retrySchedule]
    rw [show k + 0 = k from rfl] at hok
    rw [hok]
    simp
  | succ n ih =>
    intro remaining k delays hfail hok hlt
    obtain ⟨rem, rfl⟩ : ∃ rem, remaining = rem + 1 := ⟨remaining - 1, by omega⟩
    obtain ⟨msg, hmsg⟩ := hfail 0 (by omega)
    rw [show k + 0 = k from rfl] at hmsg
    simp only [retrySchedule, hmsg]
    rw [if_neg (by omega)]
    have := ih rem (k + 1) (delays + 1)
      (fun j hj => by
        obtain ⟨m, hm⟩ := hfail (j + 1) (by omega)
        exact ⟨m, by rw [show k + 1 + j = k + (j + 1) by omega]; exact hm⟩)
      (by rw [show k + 1 + n = k + (n + 1) by omega]; exact hok)
      (by omega)
    rw [this]
    exact congrArg _ (by omega)

theorem retrySchedule_exhaust {R : Type} (attempt : Nat → Except String R)
    (ws : List String) :
    ∀ (remaining k delays : Nat),
      1 ≤ remaining →
      (∀ j, j < remaining → ∃ msg, attempt (k + j) = Except.error msg) →
      retrySchedule attempt ws remaining k delays =
        (LoopExit.thrown ("Failed processing words: " ++ String.intercalate ", " ws),
          delays + (remaining - 1)) := by
  intro remaining
  induction remaining with
  | zero => omega
  | succ rem ih =>
    intro k delays _ hfail
    obtain ⟨msg, hmsg⟩ := hfail 0 (by omega)
    rw [show k + 0 = k from rfl] at hmsg
    simp only [retrySchedule, hmsg]
    by_cases hrem : rem = 0
    · subst hrem
      simp
    · rw [if_neg hrem]
      have := ih (k + 1) (delays + 1) (by omega)
        (fun j hj => by
          obtain ⟨m, hm⟩ := hfail (j + 1) (by omega)
          exact ⟨m, by rw [show k + 1 + j = k + (j + 1) by omega]; exact hm⟩)
      rw [this]
      exact congrArg _ (by omega)

/-! ## Helper lemmas: variant-2 traces -/

theorem wellCheckpointed_request (i k : Nat) (tail : List Event) :
    wellCheckpointed (Event.request i k :: tail) = wellCheckpointed tail := rfl

theorem wellCheckpointed_backoff (n : Nat) (tail : List Event) :
    wellCheckpointed (Event.backoffDelay n :: tail) = wellCheckpointed tail := rfl

theorem wellCheckpointed_pacing (tail : List Event) :
    wellCheckpointed (Event.pacingDelay :: tail) = wellCheckpointed tail := rfl

theorem wellCheckpointed_load (n : Nat) (tail : List Event) :
    wellCheckpointed (Event.loadCheckpoint n :: tail) = wellCheckpointed tail := rfl

theorem wellCheckpointed_triple (i : Nat) (ws : List String) (m t n : Nat)
    (tail : List Event) :
    wellCheckpointed
        (Event.pushResult i ws :: Event.pushProgress m t :: Event.setCheckpoint n :: tail) =
      ((n == i + ws.length) && (m == n) && wellCheckpointed tail) := rfl

theorem retryLoopV2_wellCheckpointed (attempt : Nat → Except String Unit)
    (batch : List String) (i total : Nat) :
    ∀ (remaining k : Nat) (tail : List Event),
      wellCheckpointed ((retryLoopV2 attempt batch i total remaining k).1 ++ tail) =
        wellCheckpointed tail := by
  intro remaining
  induction remaining with
  | zero => intro k tail; rfl
  | succ rem ih =>
    intro k tail
    simp only [retryLoopV2]
    cases hk : attempt k with
    | ok u =>
      simp only [List.cons_append, List.nil_append]
      rw [wellCheckpointed_request, wellCheckpointed_triple]
      simp
    | error msg =>
      by_cases hrem : rem = 0
      · subst hrem
        simp only [if_pos rfl, List.cons_append, List.nil_append]
        exact wellCheckpointed_request _ _ _
      · rw [if_neg hrem]
        simp only [List.cons_append]
        rw [wellCheckpointed_request, wellCheckpointed_backoff]
        exact ih (k + 1) tail

theorem runLoopV2_wellCheckpointed (env : Nat → Nat → Except String Unit)
    (words : List String) (B : Nat) :
    ∀ (fuel i : Nat) (tail : List Event),
      wellCheckpointed ((runLoopV2 env words B fuel i).1 ++ tail) =
        wellCheckpointed tail := by
  intro fuel
  induction fuel with
  | zero => intro i tail; rfl
  | succ f ih =>
    intro i tail
    simp only [runLoopV2]
    by_cases hi : i < words.length
    · rw [if_pos hi]
      cases hr : (retryLoopV2 (env i) ((words.drop i).take B) i words.length MAX_RETRIES 0).2 with
      | some msg =>
        simp only [hr]
        have := retryLoopV2_wellCheckpointed (env i) ((words.drop i).take B) i words.length
          MAX_RETRIES 0 tail
        simpa using this
      | none =>
        simp only [hr]
        rw [List.append_assoc, List.append_assoc]
        rw [retryLoopV2_wellCheckpointed]
        by_cases hp : i + B < words.length
        · rw [if_pos hp]
          simp only [List.cons_append, List.nil_append]
          rw [wellCheckpointed_pacing]
          exact ih (i + B) tail
        · rw [if_neg hp]
          simp only [List.nil_append]
          exact ih (i + B) tail
    · rw [if_neg hi]; rfl

theorem retryLoopV2_no_load (attempt : Nat → Except String Unit)
    (batch : List String) (i total : Nat) :
    ∀ (remaining k : Nat) (e : Event),
      e ∈ (retryLoopV2 attempt batch i total remaining k).1 → e.isLoadCheckpoint = false := by
  intro remaining
  induction remaining with
  | zero => intro k e he; simp [retryLoopV2] at he
  | succ rem ih =>
    intro k e he
    simp only [retryLoopV2] at he
    cases hk : attempt k with
    | ok u =>
      rw [hk] at he
      simp only [List.mem_cons, List.mem_singleton] at he
      rcases he with rfl | rfl | rfl | rfl | h
      · rfl
      · rfl
      · rfl
      · rfl
      · simp at h
    | error msg =>
      rw [hk] at he
      by_cases hrem : rem = 0
      · rw [if_pos hrem] at he
        simp only [List.mem_singleton] at he
        subst he; rfl
      · rw [if_neg hrem] at he
        simp only [List.mem_cons] at he
        rcases he with rfl | rfl | h
        · rfl
        · rfl
        · exact ih (k + 1) e h

theorem runLoopV2_no_load (env : Nat → Nat → Except String Unit)
    (words : List String) (B : Nat) :
    ∀ (fuel i : Nat) (e : Event),
      e ∈ (runLoopV2 env words B fuel i).1 → e.isLoadCheckpoint = false := by
  intro fuel
  induction fuel with
  | zero => intro i e he; simp [runLoopV2] at he
  | succ f ih =>
    intro i e he
    simp only [runLoopV2] at he
    by_cases hi : i < words.length
    · rw [if_pos hi] at he
      cases hr : (retryLoopV2 (env i) ((words.drop i).take B) i words.length MAX_RETRIES 0).2 with
      | some msg =>
        rw [hr] at he
        exact retryLoopV2_no_load _ _ _ _ _ _ e he
      | none =>
        rw [hr] at he
        simp only [List.mem_append] at he
        rcases he with (h | h) | h
        · exact retryLoopV2_no_load _ _ _ _ _ _ e h
        · by_cases hp : i + B < words.length
          · rw [if_pos hp] at h
            simp only [List.mem_singleton] at h
            subst h; rfl
          · rw [if_neg hp] at h
            simp at h
        · exact ih (i + B) e h
    · rw [if_neg hi] at he
      simp at he

theorem checkpointValues_append (l₁ l₂ : List Event) :
    checkpointValues (l₁ ++ l₂) = checkpointValues l₁ ++ checkpointValues l₂ := by
  simp [checkpointValues]

theorem checkpointValues_pacing (c : Prop) [Decidable c] :
    checkpointValues (if c then [Event.pacingDelay] else []) = [] := by
  by_cases h : c <;> simp [checkpointValues, h]

theorem checkpointValues_seg (i k : Nat) (ws : List String) (m t n : Nat) :
    checkpointValues [Event.request i k, Event.pushResult i ws, Event.pushProgress m t,
      Event.setCheckpoint n] = [n] := by
  simp [checkpointValues]

theorem committedWords_append (l₁ l₂ : List Event) :
    committedWords (l₁ ++ l₂) = committedWords l₁ ++ committedWords l₂ := by
  simp [committedWords]

theorem committedWords_pacing (c : Prop) [Decidable c] :
    committedWords (if c then [Event.pacingDelay] else []) = [] := by
  by_cases h : c <;> simp [committedWords, h]

theorem committedWords_seg (i k : Nat) (ws : List String) (m t n : Nat) :
    committedWords [Event.request i k, Event.pushResult i ws, Event.pushProgress m t,
      Event.setCheckpoint n] = ws := by
  simp [committedWords]

/-- If some attempt within the remaining budget succeeds, the retry loop
ends without a thrown error and its trace is a prefix of requests and
backoff delays (no checkpoint write, no commit) followed by the commit
segment of the succeeding attempt: the checkpoint write happens only after
the batch's result has been pushed, whatever failures came before. -/
theorem retryLoopV2_eventual (attempt : Nat → Except String Unit)
    (batch : List String) (i total : Nat) :
    ∀ (remaining k : Nat),
      (∃ m, m < remaining ∧ attempt (k + m) = Except.ok ()) →
      ∃ pre km,
        retryLoopV2 attempt batch i total remaining k =
          (pre ++ [Event.request i km, Event.pushResult i batch,
            Event.pushProgress (i + batch.length) total,
            Event.setCheckpoint (i + batch.length)], none) ∧
          checkpointValues pre = [] ∧ committedWords pre = [] := by
  intro remaining
  induction remaining with
  | zero =>
    intro k hm
    obtain ⟨m, hm, _⟩ := hm
    omega
  | succ rem ih =>
    intro k hm
    obtain ⟨m, hmlt, hok⟩ := hm
    cases hk0 : attempt k with
    | ok u =>
      refine ⟨[], k, ?_, rfl, rfl⟩
      simp only [retryLoopV2, hk0, List.nil_append]
    | error msg =>
      have hm0 : m ≠ 0 := by
        intro h0
        rw [h0, Nat.add_zero, hk0] at hok
        exact Except.noConfusion hok
      obtain ⟨m', rfl⟩ : ∃ m', m = m' + 1 := ⟨m - 1, by omega⟩
      have hrem : rem ≠ 0 := by omega
      obtain ⟨pre, km, hpre, hcv, hcw⟩ := ih (k + 1)
        ⟨m', by omega, by rw [show k + 1 + m' = k + (m' + 1) by omega]; exact hok⟩
      refine ⟨Event.request i k :: Event.backoffDelay (k + 1) :: pre, km, ?_, ?_, ?_⟩
      · simp only [retryLoopV2, hk0, if_neg hrem, hpre, List.cons_append]
      · simpa [checkpointValues] using hcv
      · simpa [committedWords] using hcw

theorem runLoopV2_ckpt_get (env : Nat → Nat → Except String Unit)
    (words : List String) (B : Nat)
    (hev : ∀ i, ∃ m, m < MAX_RETRIES ∧ env i m = Except.ok ()) (hB : 1 ≤ B) :
    ∀ (j fuel i : Nat), words.length + 1 - i ≤ fuel →
      i + (j + 1) * B ≤ words.length →
      (checkpointValues (runLoopV2 env words B fuel i).1)[j]? = some (i + (j + 1) * B) := by
  intro j
  induction j with
  | zero =>
    intro fuel i hfuel hle
    simp only [Nat.zero_add, one_mul] at hle ⊢
    have hi : i < words.length := by omega
    obtain ⟨f, rfl⟩ : ∃ f, fuel = f + 1 := ⟨fuel - 1, by omega⟩
    obtain ⟨m, hm, hok⟩ := hev i
    obtain ⟨pre, km, hpre, hcv, hcw⟩ := retryLoopV2_eventual (env i)
      ((words.drop i).take B) i words.length MAX_RETRIES 0 ⟨m, hm, by simpa using hok⟩
    simp only [runLoopV2, if_pos hi]
    rw [hpre]
    have hlen : ((words.drop i).take B).length = B := by
      simp only [List.length_take, List.length_drop]
      omega
    rw [checkpointValues_append, checkpointValues_append, checkpointValues_append,
      checkpointValues_seg, checkpointValues_pacing, hcv, hlen]
    simp
  | succ j ih =>
    intro fuel i hfuel hle
    have hstep : (j + 1 + 1) * B = (j + 1) * B + B := by ring
    have hi : i < words.length := by omega
    obtain ⟨f, rfl⟩ : ∃ f, fuel = f + 1 := ⟨fuel - 1, by omega⟩
    obtain ⟨m, hm, hok⟩ := hev i
    obtain ⟨pre, km, hpre, hcv, hcw⟩ := retryLoopV2_eventual (env i)
      ((words.drop i).take B) i words.length MAX_RETRIES 0 ⟨m, hm, by simpa using hok⟩
    simp only [runLoopV2, if_pos hi]
    rw [hpre]
    rw [checkpointValues_append, checkpointValues_append, checkpointValues_append,
      checkpointValues_seg, checkpointValues_pacing, hcv]
    have hrec := ih f (i + B) (by omega) (by omega)
    have harith : i + B + (j + 1) * B = i + (j + 1 + 1) * B := by ring
    rw [harith] at hrec
    simp [hrec]

theorem runLoopV2_committed (env : Nat → Nat → Except String Unit)
    (words : List String) (B : Nat)
    (hev : ∀ i, ∃ m, m < MAX_RETRIES ∧ env i m = Except.ok ()) (hB : 1 ≤ B) :
    ∀ (fuel i : Nat), words.length + 1 - i ≤ fuel →
      committedWords (runLoopV2 env words B fuel i).1 = words.drop i := by
  intro fuel
  induction fuel with
  | zero =>
    intro i hfuel
    simp only [runLoopV2, committedWords, List.filterMap_nil, List.flatten_nil]
    rw [eq_comm]
    exact List.drop_eq_nil_of_le (by omega)
  | succ f ih =>
    intro i hfuel
    by_cases hi : i < words.length
    · obtain ⟨m, hm, hok⟩ := hev i
      obtain ⟨pre, km, hpre, hcv, hcw⟩ := retryLoopV2_eventual (env i)
        ((words.drop i).take B) i words.length MAX_RETRIES 0 ⟨m, hm, by simpa using hok⟩
      simp only [runLoopV2, if_pos hi]
      rw [hpre]
      rw [committedWords_append, committedWords_append, committedWords_append,
        committedWords_seg, committedWords_pacing, hcw]
      rw [ih (i + B) (by omega)]
      have hdrop : words.drop (i + B) = (words.drop i).drop B := by
        rw [List.drop_drop]
      rw [hdrop, List.nil_append, List.append_nil, List.take_append_drop]
    · simp only [runLoopV2, if_neg hi, committedWords, List.filterMap_nil, List.flatten_nil]
      rw [eq_comm]
      exact List.drop_eq_nil_of_le (by omega)

/-! ## Helper lemmas: variant-1 traces -/

theorem runLoopV1_failure_mem (env : Nat → Except String Unit) (words : List String)
    (B totalBatches : Nat) (hB : 1 ≤ B) :
    ∀ (fuel i0 i : Nat) (msg : String), words.length + 1 - i0 ≤ fuel →
      i0 ≤ i → i < words.length → B ∣ i - i0 →
      env (i / B + 1) = Except.error msg →
      Event.pushFailureRecord (i / B + 1) ((words.drop i).take B) msg ∈
        (runLoopV1 env words B totalBatches fuel i0).2 := by
  intro fuel
  induction fuel with
  | zero => intro i0 i msg hfuel h0 hi _ _; omega
  | succ f ih =>
    intro i0 i msg hfuel h0 hi hdvd henv
    have hi0 : i0 < words.length := by omega
    simp only [runLoopV1, if_pos hi0]
    by_cases heq : i0 = i
    · subst heq
      rw [henv]
      simp
    · obtain ⟨q, hq⟩ := hdvd
      rw [Nat.mul_comm] at hq
      have hq1 : 1 ≤ q := by
        by_contra hcon
        have hq0 : q = 0 := by omega
        rw [hq0, Nat.zero_mul] at hq
        omega
      have hBle : B ≤ q * B := by
        calc B = 1 * B := (one_mul B).symm
        _ ≤ q * B := Nat.mul_le_mul_right B hq1
      have hstep : i0 + B ≤ i := by omega
      have hdvd' : B ∣ i - (i0 + B) := by
        refine ⟨q - 1, ?_⟩
        rw [Nat.mul_comm, Nat.sub_mul, one_mul]
        omega
      have hrec := ih (i0 + B) i msg (by omega) (by omega) hi hdvd' henv
      cases henv0 : env (i0 / B + 1) with
      | ok u => simp [hrec]
      | error m => simp [hrec]

theorem processAllWordsV1_ends_with_summary (env : Nat → Except String Unit)
    (words : List String) (B : Nat) :
    (processAllWordsV1 env words B).getLast? =
      some (Event.summary words.length ((words.length + B - 1) / B)
        (runLoopV1 env words B ((words.length + B - 1) / B) (words.length + 1) 0).1) := by
  unfold processAllWordsV1
  exact List.getLast?_concat _

theorem mainV1_no_error (wordsInput : Option (List String)) (batchSize : Int)
    (env : Nat → Except String Unit)
    (hw : wordsInput.getD [] ≠ []) (h1 : 1 ≤ batchSize) (h2 : batchSize ≤ 20) :
    (mainV1 wordsInput batchSize env).2 = none := by
  unfold mainV1
  rw [if_neg hw, if_neg (by omega)]

theorem digitsAfterPoint_jsToFixed10 (x : ℚ) (hx : |x| < 10 ^ 21) :
    digitsAfterPoint (jsToFixed10 x) = 10 := by
  unfold jsToFixed10 jsToFixed10Mag
  by_cases h : x < 0
  · have hlt : -x < 10 ^ 21 := by
      rw [abs_of_neg h] at hx
      exact hx
    rw [if_pos h, if_neg (not_le.mpr hlt)]
    have hassoc :
        "-" ++ (Nat.repr (toFixedParts (-x)).1 ++ "." ++ fracDigits10 (toFixedParts (-x)).2) =
          ("-" ++ Nat.repr (toFixedParts (-x)).1) ++ "." ++ fracDigits10 (toFixedParts (-x)).2 := by
      simp [String.append_assoc]
    rw [hassoc, digitsAfterPoint_pre_frac]
  · have hlt : x < 10 ^ 21 := by
      rw [abs_of_nonneg (not_lt.mp h)] at hx
      exact hx
    rw [if_neg h, if_neg (not_le.mpr hlt), digitsAfterPoint_pre_frac]

/-! ## Claims -/

/-- C4: for every word list `W` and every batch size `B >= 1`, partitioning
`W` into consecutive batches of at most `B` words (`W.slice(i, i+B)` for
`i = 0, B, 2B, ...`) and concatenating the batches in order reconstructs `W`
exactly — no word lost, duplicated or reordered — and no batch exceeds `B`
words. -/
theorem c4_batch_partition (words : List String) (B : Nat) (hB : 1 ≤ B) :
    (makeBatches words B).flatten = words ∧
      ∀ b ∈ makeBatches words B, b.length ≤ B :=
  ⟨makeBatches_flatten words B hB, makeBatches_size words B⟩

theorem c4_batch_partition_witness :
    1 ≤ 2 ∧
      ((makeBatches ["a", "b", "c"] 2).flatten = ["a", "b", "c"] ∧
        ∀ b ∈ makeBatches ["a", "b", "c"] 2, b.length ≤ 2) :=
  ⟨by decide, c4_batch_partition ["a", "b", "c"] 2 (by decide)⟩

/-- C5: for every input word batch and every API response, the produced
`BatchResult`'s `word_freq` has length equal to the input batch length
(which also equals the `batch_size` field), and the i-th record's word is
the i-th input word, however the response orders, omits or duplicates
entries.  Holds for both main.js variants. -/
theorem c5_word_freq_alignment (words : List String) (data : List Entry)
    (yearEnd : Int) (now : String) (i : Nat) :
    ((scrapeNgramsV1 words data yearEnd now).word_freq.length = words.length ∧
      (scrapeNgramsV1 words data yearEnd now).batch_size = words.length ∧
      ((scrapeNgramsV1 words data yearEnd now).word_freq[i]?).map Prod.fst = words[i]?) ∧
    ((processBatchResultV2 words data yearEnd now).word_freq.length = words.length ∧
      (processBatchResultV2 words data yearEnd now).batch_size = words.length ∧
      ((processBatchResultV2 words data yearEnd now).word_freq[i]?).map Prod.fst
        = words[i]?) := by
  refine ⟨⟨?_, rfl, ?_⟩, ?_, rfl, ?_⟩ <;>
    cases h : words[i]? <;>
    simp_all [scrapeNgramsV1, processBatchResultV2, wordFreqV1, wordFreqV2, wordFreqOf,
      List.getElem?_map]

/-- C8: for every input configuration with a missing or empty word list, or
with a batch size below 1 or above the configured maximum of the variant at
hand (20 in main.js variant 1, 12 in variant 2), that variant's run fails
with the configuration error before any work: its event trace is empty (no
network request, no batch, no output record) and the error is raised.  Each
variant's condition guards its own conclusion, so variant 2 is covered for
every batch size above 12, including 13..20. -/
theorem c8_config_validation (wordsInput : Option (List String)) (batchSize : Int)
    (env1 : Nat → Except String Unit) (env2 : Nat → Nat → Except String Unit)
    (stored : Option Nat) :
    ((wordsInput.getD [] = [] ∨ batchSize < 1 ∨ 20 < batchSize) →
        (mainV1 wordsInput batchSize env1).1 = [] ∧
          (mainV1 wordsInput batchSize env1).2.isSome = true) ∧
      ((wordsInput.getD [] = [] ∨ batchSize < 1 ∨ 12 < batchSize) →
        (mainV2 wordsInput batchSize env2 stored).1 = [] ∧
          (mainV2 wordsInput batchSize env2 stored).2.isSome = true) := by
  constructor
  · intro h1
    unfold mainV1
    by_cases hw : wordsInput.getD [] = []
    · rw [if_pos hw]; exact ⟨rfl, rfl⟩
    · have hb : batchSize < 1 ∨ 20 < batchSize := by tauto
      rw [if_neg hw, if_pos hb]; exact ⟨rfl, rfl⟩
  · intro h2
    unfold mainV2
    by_cases hw : wordsInput.getD [] = []
    · rw [if_pos hw]; exact ⟨rfl, rfl⟩
    · have hb : batchSize < 1 ∨ 12 < batchSize := by tauto
      rw [if_neg hw, if_pos hb]; exact ⟨rfl, rfl⟩

theorem c8_config_validation_witness :
    ((mainV1 (some ["a"]) 0 (fun _ => Except.ok ())).1 = [] ∧
        (mainV1 (some ["a"]) 0 (fun _ => Except.ok ())).2.isSome = true) ∧
      ((mainV2 (some ["a"]) 15 (fun _ _ => Except.ok ()) none).1 = [] ∧
        (mainV2 (some ["a"]) 15 (fun _ _ => Except.ok ()) none).2.isSome = true) :=
  ⟨(c8_config_validation (some ["a"]) 0 (fun _ => Except.ok ())
      (fun _ _ => Except.ok ()) none).1 (Or.inr (Or.inl (by norm_num))),
    (c8_config_validation (some ["a"]) 15 (fun _ => Except.ok ())
      (fun _ _ => Except.ok ()) none).2 (Or.inr (Or.inr (by norm_num)))⟩

/-- C10: the lookup from input word to normalized response frequency is
exact, case-sensitive string equality on the suffix-stripped response
label: the map value at `w` is determined by the last kept entry whose
stripped label equals `w` character for character (later `Map.set` calls
overwrite earlier ones), a label differing only in letter case yields the
sentinel, and of several entries stripping to the same label the last in
response order wins. -/
theorem c10_exact_lookup :
    (∀ (data : List Entry) (w : String),
        buildMap stripAllSuffix data w =
          ((keptEntries data).reverse.find? fun e => stripAllSuffix e.ngram == w).map
            fun e => entryFreq e.timeseries) ∧
      wordFreqV2 ["time"] [⟨"CASE_INSENSITIVE", "Time (All)", [1/2]⟩] =
        [("time", "-1.0000000000")] ∧
      wordFreqV2 ["a"]
          [⟨"CASE_INSENSITIVE", "a (All)", [1]⟩, ⟨"CASE_INSENSITIVE", "a", [2]⟩] =
        [("a", entryFreq [2])] :=
  ⟨fun data w => buildMap_lookup stripAllSuffix data w, rfl, rfl⟩

/-- C6 (amended): a word absent from the normalized response map resolves
to the script's sentinel — `"-1.0000000000"` in both main.js variants but
`"-1.0"` in ngram-scraper.js — never null and never an exception, and on an
empty response array every word of the batch resolves to that sentinel. -/
theorem c6_sentinel_amended (words : List String) (data : List Entry) (w : String)
    (i : Nat) (hi : words[i]? = some w) :
    (buildMap id data w = none →
        (wordFreqV1 words data)[i]? = some (w, "-1.0000000000")) ∧
      (buildMap stripAllSuffix data w = none →
        (wordFreqV2 words data)[i]? = some (w, "-1.0000000000")) ∧
      (buildMap stripAllSuffix data w = none →
        (wordFreqNS words data)[i]? = some (w, "-1.0")) ∧
      wordFreqV1 words [] = words.map (fun x => (x, "-1.0000000000")) ∧
      wordFreqV2 words [] = words.map (fun x => (x, "-1.0000000000")) ∧
      wordFreqNS words [] = words.map (fun x => (x, "-1.0")) := by
  refine ⟨?_, ?_, ?_, ?_, ?_, ?_⟩ <;>
    first
      | (intro h
         simp [wordFreqV1, wordFreqV2, wordFreqNS, wordFreqOf, List.getElem?_map, hi, h])
      | simp [wordFreqV1, wordFreqV2, wordFreqNS, wordFreqOf, buildMap_nil]

theorem c6_sentinel_counterexample :
    wordFreqNS ["a"] [] = [("a", "-1.0")] ∧ "-1.0" ≠ "-1.0000000000" := by decide

theorem c6_sentinel_witness :
    ((["b"] : List String)[0]? = some "b") ∧
      ((buildMap id [] "b" = none →
          (wordFreqV1 ["b"] [])[0]? = some ("b", "-1.0000000000")) ∧
        (buildMap stripAllSuffix [] "b" = none →
          (wordFreqV2 ["b"] [])[0]? = some ("b", "-1.0000000000")) ∧
        (buildMap stripAllSuffix [] "b" = none →
          (wordFreqNS ["b"] [])[0]? = some ("b", "-1.0")) ∧
        wordFreqV1 ["b"] [] = (["b"] : List String).map (fun x => (x, "-1.0000000000")) ∧
        wordFreqV2 ["b"] [] = (["b"] : List String).map (fun x => (x, "-1.0000000000")) ∧
        wordFreqNS ["b"] [] = (["b"] : List String).map (fun x => (x, "-1.0"))) :=
  ⟨rfl, c6_sentinel_amended ["b"] [] "b" 0 rfl⟩

/-- C7 (amended): for every kept response entry whose timeseries is
non-empty and ends with `x`, and which is the last kept entry for its
(stripped) label, the frequency recorded for that label is `x * 100`
rendered by `toFixed(10)`; whenever `|x * 100| < 10^21` — the decimal
branch of `toFixed` — that is a decimal string with exactly ten digits
after the decimal point (for larger magnitudes `toFixed` falls back to
`Number::toString`'s exponential form; see the counterexample).  Stated
for an arbitrary strip function and sentinel, covering main.js variant 1
(`id`), main.js variant 2 and ngram-scraper.js (`stripAllSuffix`). -/
theorem c7_freq_format (stripLabel : String → String) (sentinel : String)
    (words : List String) (data : List Entry) (e : Entry) (l : List ℚ) (x : ℚ) (i : Nat)
    (hlast : (keptEntries data).reverse.find?
      (fun e' => stripLabel e'.ngram == stripLabel e.ngram) = some e)
    (hts : e.timeseries = l ++ [x])
    (hi : words[i]? = some (stripLabel e.ngram))
    (hx : |x * 100| < 10 ^ 21) :
    (wordFreqOf stripLabel sentinel words data)[i]? =
        some (stripLabel e.ngram, jsToFixed10 (x * 100)) ∧
      digitsAfterPoint (jsToFixed10 (x * 100)) = 10 := by
  constructor
  · have hmap := buildMap_lookup stripLabel data (stripLabel e.ngram)
    rw [hlast] at hmap
    have hfreq : entryFreq e.timeseries = jsToFixed10 (x * 100) := by
      rw [hts]
      simp [entryFreq, List.getLast?_concat]
    simp [wordFreqOf, List.getElem?_map, hi, hmap, hfreq]
  · exact digitsAfterPoint_jsToFixed10 _ hx

theorem c7_freq_format_counterexample :
    (wordFreqOf stripAllSuffix "-1.0000000000" ["w"]
        [⟨"CASE_INSENSITIVE", "w", [10 ^ 19]⟩])[0]? = some ("w", "1e+21") ∧
      digitsAfterPoint "1e+21" ≠ 10 := by
  constructor
  · have hmap : buildMap stripAllSuffix [⟨"CASE_INSENSITIVE", "w", [10 ^ 19]⟩] "w" =
        some (entryFreq [(10 : ℚ) ^ 19]) := rfl
    have hcast : (10 : ℚ) ^ 19 * 100 = ((10 ^ 21 : ℕ) : ℚ) := by
      push_cast
      ring
    have hval : entryFreq [(10 : ℚ) ^ 19] = "1e+21" := by
      have hlast : ([(10 : ℚ) ^ 19]).getLast? = some ((10 : ℚ) ^ 19) := rfl
      rw [entryFreq, hlast]
      show jsToFixed10 ((10 : ℚ) ^ 19 * 100) = "1e+21"
      rw [hcast, jsToFixed10, if_neg (not_lt.mpr (by positivity)), jsToFixed10Mag,
        if_pos (by push_cast; norm_num)]
      rw [jsToStringLarge]
      rw [show (⌊((10 ^ 21 : ℕ) : ℚ)⌋).toNat = 10 ^ 21 by
        rw [Int.floor_natCast]
        exact Int.toNat_natCast _]
      decide
    simp [wordFreqOf, hmap, hval]
  · decide

theorem c7_freq_format_witness :
    ((keptEntries [⟨"CASE_INSENSITIVE", "time (All)", [1/4]⟩]).reverse.find?
        (fun e' => stripAllSuffix e'.ngram ==
          stripAllSuffix (Entry.mk "CASE_INSENSITIVE" "time (All)" [1/4]).ngram) =
      some ⟨"CASE_INSENSITIVE", "time (All)", [1/4]⟩) ∧
      |(1/4 : ℚ) * 100| < 10 ^ 21 ∧
      ((wordFreqOf stripAllSuffix "-1.0000000000" ["time"]
          [⟨"CASE_INSENSITIVE", "time (All)", [1/4]⟩])[0]? =
        some (stripAllSuffix (Entry.mk "CASE_INSENSITIVE" "time (All)" [1/4]).ngram,
          jsToFixed10 (1/4 * 100)) ∧
        digitsAfterPoint (jsToFixed10 (1/4 * 100)) = 10) :=
  ⟨rfl, by rw [abs_of_nonneg (by norm_num)]; norm_num,
    c7_freq_format stripAllSuffix "-1.0000000000" ["time"]
      [⟨"CASE_INSENSITIVE", "time (All)", [1/4]⟩]
      ⟨"CASE_INSENSITIVE", "time (All)", [1/4]⟩ [] (1/4) 0 rfl rfl rfl
      (by rw [abs_of_nonneg (by norm_num)]; norm_num)⟩

/-- C9: a kept entry with an empty timeseries makes the normalizer record
the string `"NaN"` for that entry's word (JavaScript indexing past the end
yields `undefined`, `undefined * 100` is `NaN`, and `NaN.toFixed(10)` is
`"NaN"`): neither a ten-decimal frequency nor the sentinel, so the
ten-decimal-or-sentinel contract only holds when every kept entry's
timeseries is non-empty. -/
theorem c9_empty_timeseries (stripLabel : String → String) (sentinel : String)
    (words : List String) (data : List Entry) (e : Entry) (i : Nat)
    (hlast : (keptEntries data).reverse.find?
      (fun e' => stripLabel e'.ngram == stripLabel e.ngram) = some e)
    (hts : e.timeseries = [])
    (hi : words[i]? = some (stripLabel e.ngram))
    (hsent : sentinel = "-1.0000000000" ∨ sentinel = "-1.0") :
    (wordFreqOf stripLabel sentinel words data)[i]? =
        some (stripLabel e.ngram, "NaN") ∧
      "NaN" ≠ sentinel ∧ digitsAfterPoint "NaN" ≠ 10 := by
  refine ⟨?_, ?_, by decide⟩
  · have hmap := buildMap_lookup stripLabel data (stripLabel e.ngram)
    rw [hlast] at hmap
    have hfreq : entryFreq e.timeseries = "NaN" := by
      rw [hts]
      rfl
    simp [wordFreqOf, List.getElem?_map, hi, hmap, hfreq]
  · rcases hsent with rfl | rfl <;> decide

theorem c9_empty_timeseries_witness :
    ((keptEntries [⟨"CASE_INSENSITIVE", "time (All)", []⟩]).reverse.find?
        (fun e' => stripAllSuffix e'.ngram ==
          stripAllSuffix (Entry.mk "CASE_INSENSITIVE" "time (All)" []).ngram) =
      some ⟨"CASE_INSENSITIVE", "time (All)", []⟩) ∧
      ((wordFreqOf stripAllSuffix "-1.0000000000" ["time"]
          [⟨"CASE_INSENSITIVE", "time (All)", []⟩])[0]? =
        some (stripAllSuffix (Entry.mk "CASE_INSENSITIVE" "time (All)" []).ngram,
          "NaN") ∧
        "NaN" ≠ "-1.0000000000" ∧ digitsAfterPoint "NaN" ≠ 10) :=
  ⟨rfl,
    c9_empty_timeseries stripAllSuffix "-1.0000000000" ["time"]
      [⟨"CASE_INSENSITIVE", "time (All)", []⟩]
      ⟨"CASE_INSENSITIVE", "time (All)", []⟩ 0 rfl rfl rfl (Or.inl rfl)⟩

/-- C1 (amended): around one batch execution, a successful attempt returns
its result immediately with no further attempts; `n` consecutive failures
followed by a success perform exactly `n` backoff delays; `maxRetries`
consecutive failures throw the batch-exhausted error after exactly
`maxRetries - 1` delays (no delay after the final failed attempt) — but the
thrown error carries only the comma-joined batch words, not the last
underlying error message. -/
theorem c1_retry_amended {R : Type} (attempt : Nat → Except String R)
    (ws : List String) (maxRetries n : Nat) (r : R) :
    ((∀ j, j < n → ∃ msg, attempt j = Except.error msg) →
        attempt n = Except.ok r → n < maxRetries →
        retryScheduler attempt ws maxRetries = (LoopExit.success r, n)) ∧
      ((∀ j, j < maxRetries → ∃ msg, attempt j = Except.error msg) → 1 ≤ maxRetries →
        retryScheduler attempt ws maxRetries =
          (LoopExit.thrown ("Failed processing words: " ++ String.intercalate ", " ws),
            maxRetries - 1)) := by
  constructor
  · intro hfail hok hlt
    have h := retrySchedule_success attempt ws r n maxRetries 0 0
      (fun j hj => by simpa using hfail j hj) (by simpa using hok) hlt
    simpa [retryScheduler] using h
  · intro hfail h1
    have h := retrySchedule_exhaust attempt ws maxRetries 0 0 h1
      (fun j hj => by simpa using hfail j hj)
    simpa [retryScheduler] using h

theorem c1_retry_counterexample :
    retryScheduler (fun _ => (Except.error "boom" : Except String Unit)) ["a"] 3 =
        (LoopExit.thrown "Failed processing words: a", 2) ∧
      containsSub "Failed processing words: a".data "boom".data = false := by decide

theorem c1_retry_witness :
    retryScheduler
          (fun k => if k < 2 then (Except.error "e" : Except String Nat) else Except.ok 7)
          ["a", "b"] 3 =
        (LoopExit.success 7, 2) ∧
      retryScheduler (fun _ => (Except.error "e" : Except String Nat)) ["a", "b"] 3 =
        (LoopExit.thrown "Failed processing words: a, b", 2) :=
  ⟨(c1_retry_amended
      (fun k => if k < 2 then (Except.error "e" : Except String Nat) else Except.ok 7)
      ["a", "b"] 3 2 7).1
      (fun j hj => ⟨"e", by simp [hj]⟩) (by norm_num) (by omega),
    (c1_retry_amended (fun _ => (Except.error "e" : Except String Nat))
      ["a", "b"] 3 0 0).2 (fun j _ => ⟨"e", rfl⟩) (by omega)⟩

/-- C2 (amended): in main.js variant 1, a permanently failed batch has its
failure record (batch number, words, error message) committed to the output
sink and the run continues with the next batch; no number of batch failures
makes the run end with an error, and the trace always ends with the summary
event.  (In main.js variant 2 an exhausted batch instead aborts the run with
no failure record and no summary — see the counterexample.) -/
theorem c2_failure_tolerance_amended (wordsInput : Option (List String)) (batchSize : Int)
    (env : Nat → Except String Unit) (i : Nat) (msg : String)
    (hw : wordsInput.getD [] ≠ []) (h1 : 1 ≤ batchSize) (h2 : batchSize ≤ 20)
    (hi : i < (wordsInput.getD []).length) (hdvd : batchSize.toNat ∣ i)
    (henv : env (i / batchSize.toNat + 1) = Except.error msg) :
    (mainV1 wordsInput batchSize env).2 = none ∧
      Event.pushFailureRecord (i / batchSize.toNat + 1)
          (((wordsInput.getD []).drop i).take batchSize.toNat) msg ∈
        (mainV1 wordsInput batchSize env).1 ∧
      (∃ s, (mainV1 wordsInput batchSize env).1.getLast? =
        some (Event.summary (wordsInput.getD []).length
          (((wordsInput.getD []).length + batchSize.toNat - 1) / batchSize.toNat) s)) := by
  have hB : 1 ≤ batchSize.toNat := by omega
  refine ⟨mainV1_no_error wordsInput batchSize env hw h1 h2, ?_, ?_⟩
  · unfold mainV1
    rw [if_neg hw, if_neg (by omega)]
    unfold processAllWordsV1
    refine List.mem_append_left _ ?_
    have := runLoopV1_failure_mem env (wordsInput.getD []) batchSize.toNat
      (((wordsInput.getD []).length + batchSize.toNat - 1) / batchSize.toNat) hB
      ((wordsInput.getD []).length + 1) 0 i msg (by omega) (by omega) hi
      (by simpa using hdvd) henv
    exact this
  · unfold mainV1
    rw [if_neg hw, if_neg (by omega)]
    exact ⟨_, processAllWordsV1_ends_with_summary env (wordsInput.getD []) batchSize.toNat⟩

theorem c2_failure_tolerance_counterexample :
    (mainV2 (some ["a"]) 1 (fun _ _ => Except.error "boom") none).2 =
        some "Failed processing words: a" ∧
      ((mainV2 (some ["a"]) 1 (fun _ _ => Except.error "boom") none).1.all
        fun e => !e.isFailureRecord && !e.isSummary) = true := by decide

theorem c2_failure_tolerance_witness :
    ((some (["a", "b", "c"] : List String)).getD [] ≠ []) ∧
      ((mainV1 (some ["a", "b", "c"]) 2
          (fun bn => if bn = 1 then Except.error "boom" else Except.ok ())).2 = none ∧
        Event.pushFailureRecord (0 / (2 : Int).toNat + 1)
            ((((some (["a", "b", "c"] : List String)).getD []).drop 0).take (2 : Int).toNat)
            "boom" ∈
          (mainV1 (some ["a", "b", "c"]) 2
            (fun bn => if bn = 1 then Except.error "boom" else Except.ok ())).1 ∧
        (∃ s, (mainV1 (some ["a", "b", "c"]) 2
            (fun bn => if bn = 1 then Except.error "boom" else Except.ok ())).1.getLast? =
          some (Event.summary ((some (["a", "b", "c"] : List String)).getD []).length
            ((((some (["a", "b", "c"] : List String)).getD []).length + (2 : Int).toNat - 1) /
              (2 : Int).toNat) s))) :=
  ⟨by decide,
    c2_failure_tolerance_amended (some ["a", "b", "c"]) 2
      (fun bn => if bn = 1 then Except.error "boom" else Except.ok ()) 0 "boom"
      (by decide) (by omega) (by omega) (by decide) ⟨0, rfl⟩ rfl⟩

/-- C3: the checkpoint is read exactly once at run start (defaulting to 0
when absent) and written only after the corresponding batch's result has
been committed to the output sink, never before — these hold for every run,
whatever the attempt outcomes and the stored checkpoint.  Moreover, when
every batch succeeds within the retry budget, a run that starts at index 0
writes `(j+1) * batchSize` as its `j`-th checkpoint value (so after `k`
committed full batches the stored index is `k * batchSize`), and a run
restarted from checkpoint `k * batchSize` commits exactly the words from
index `k * batchSize` on — never reprocessing committed batches and never
skipping uncommitted words. -/
theorem c3_checkpoint (env : Nat → Nat → Except String Unit) (words : List String)
    (B : Nat) (stored : Option Nat) (j k : Nat)
    (hB : 1 ≤ B) (hjk : j < k) (hk : k * B ≤ words.length) :
    (processAllWordsV2 env words B stored).1.head? =
        some (Event.loadCheckpoint (stored.getD 0)) ∧
      (processAllWordsV2 env words B stored).1.countP Event.isLoadCheckpoint = 1 ∧
      wellCheckpointed (processAllWordsV2 env words B stored).1 = true ∧
      ((∀ i, ∃ m, m < MAX_RETRIES ∧ env i m = Except.ok ()) →
        (checkpointValues (processAllWordsV2 env words B (some 0)).1)[j]? =
          some ((j + 1) * B)) ∧
      ((∀ i, ∃ m, m < MAX_RETRIES ∧ env i m = Except.ok ()) →
        committedWords (processAllWordsV2 env words B (some (k * B))).1 =
          words.drop (k * B)) := by
  refine ⟨rfl, ?_, ?_, ?_, ?_⟩
  · show (Event.loadCheckpoint (stored.getD 0) ::
      (runLoopV2 env words B (words.length + 1) (stored.getD 0)).1).countP
        Event.isLoadCheckpoint = 1
    rw [List.countP_cons]
    have hz : (runLoopV2 env words B (words.length + 1) (stored.getD 0)).1.countP
        Event.isLoadCheckpoint = 0 := by
      rw [List.countP_eq_zero]
      intro e he
      simp [runLoopV2_no_load env words B (words.length + 1) (stored.getD 0) e he]
    rw [hz]
    rfl
  · show wellCheckpointed (Event.loadCheckpoint (stored.getD 0) ::
      (runLoopV2 env words B (words.length + 1) (stored.getD 0)).1) = true
    rw [wellCheckpointed_load]
    rw [← List.append_nil (runLoopV2 env words B (words.length + 1) (stored.getD 0)).1]
    rw [runLoopV2_wellCheckpointed]
    rfl
  · intro hev
    show (checkpointValues (Event.loadCheckpoint ((some 0).getD 0) ::
      (runLoopV2 env words B (words.length + 1) ((some 0).getD 0)).1))[j]? =
        some ((j + 1) * B)
    have hcv : checkpointValues (Event.loadCheckpoint ((some 0).getD 0) ::
        (runLoopV2 env words B (words.length + 1) ((some 0).getD 0)).1) =
        checkpointValues (runLoopV2 env words B (words.length + 1) 0).1 := by
      simp [checkpointValues]
    rw [hcv]
    have hmul : (j + 1) * B ≤ k * B := Nat.mul_le_mul_right B (by omega)
    have h := runLoopV2_ckpt_get env words B hev hB j (words.length + 1) 0
      (by omega) (by omega)
    simpa using h
  · intro hev
    show committedWords (Event.loadCheckpoint ((some (k * B)).getD 0) ::
      (runLoopV2 env words B (words.length + 1) ((some (k * B)).getD 0)).1) =
        words.drop (k * B)
    have hcw : committedWords (Event.loadCheckpoint ((some (k * B)).getD 0) ::
        (runLoopV2 env words B (words.length + 1) ((some (k * B)).getD 0)).1) =
        committedWords (runLoopV2 env words B (words.length + 1) (k * B)).1 := by
      simp [committedWords]
    rw [hcw]
    exact runLoopV2_committed env words B hev hB (words.length + 1) (k * B) (by omega)

theorem c3_checkpoint_witness :
    1 ≤ 1 ∧ 0 < 2 ∧ 2 * 1 ≤ (["a", "b", "c"] : List String).length ∧
      ((processAllWordsV2 (fun _ _ => Except.ok ()) ["a", "b", "c"] 1 none).1.head? =
          some (Event.loadCheckpoint ((none : Option Nat).getD 0)) ∧
        (processAllWordsV2 (fun _ _ => Except.ok ()) ["a", "b", "c"] 1 none).1.countP
          Event.isLoadCheckpoint = 1 ∧
        wellCheckpointed
          (processAllWordsV2 (fun _ _ => Except.ok ()) ["a", "b", "c"] 1 none).1 = true ∧
        (checkpointValues
          (processAllWordsV2 (fun _ _ => Except.ok ()) ["a", "b", "c"] 1 (some 0)).1)[0]? =
          some ((0 + 1) * 1) ∧
        committedWords
            (processAllWordsV2 (fun _ _ => Except.ok ()) ["a", "b", "c"] 1 (some (2 * 1))).1 =
          (["a", "b", "c"] : List String).drop (2 * 1)) :=
  ⟨by decide, by decide, by decide,
    (c3_checkpoint (fun _ _ => Except.ok ()) ["a", "b", "c"] 1 none 0 2
        (by decide) (by decide) (by decide)).1,
    (c3_checkpoint (fun _ _ => Except.ok ()) ["a", "b", "c"] 1 none 0 2
        (by decide) (by decide) (by decide)).2.1,
    (c3_checkpoint (fun _ _ => Except.ok ()) ["a", "b", "c"] 1 none 0 2
        (by decide) (by decide) (by decide)).2.2.1,
    (c3_checkpoint (fun _ _ => Except.ok ()) ["a", "b", "c"] 1 none 0 2
        (by decide) (by decide) (by decide)).2.2.2.1
      (fun i => ⟨0, by decide, rfl⟩),
    (c3_checkpoint (fun _ _ => Except.ok ()) ["a", "b", "c"] 1 none 0 2
        (by decide) (by decide) (by decide)).2.2.2.2
      (fun i => ⟨0, by decide, rfl⟩)⟩
